import Mathlib

/-!
Verification of the msgbot cafe AI assistant core against its design notes.

Shallow embedding conventions:
* Python `str` values appear as Lean `String` (or `List Char` where
  character-level processing matters).
* Machine integers are `Nat`/`Int`; the code never relies on overflow.
* Fallible calls return `Option`/`Except`; external collaborators (the HTTP
  post-detail lookup, the HTML cleaner, the language-model API) are passed in
  as explicit oracle functions, matching the design's "opaque collaborator"
  boundary.
-/

set_option maxHeartbeats 1000000

namespace CafeBot

/-!
## ArticleScanner — `scan_new_articles` (src/modules/api_client.py 143-197)

A probe is `probe : Nat → Option Nat`: probing an article id either finds an
article (returning its board id `result["article"]["menu"]["id"]`) or misses
(`get_article_detail` returned `None`).
-/

/-- `max_consecutive_misses = 50` (api_client.py line 169). -/
def max_consecutive_misses : Nat := 50

/-- The board filter `menu_id is None or article_menu_id == menu_id`
(api_client.py line 182). -/
def passes_menu_filter (menuFilter : Option Nat) (articleMenuId : Nat) : Bool :=
  match menuFilter with
  | none => true
  | some m => articleMenuId == m

/-- Loop body of `scan_new_articles`: walks the remaining article ids,
carrying the `consecutive_misses` counter; returns `(new_ids, probed)` where
`probed` records every id actually handed to `get_article_detail`. -/
def scanFrom (probe : Nat → Option Nat) (menuFilter : Option Nat) :
    List Nat → Nat → List Nat × List Nat
  | [], _ => ([], [])
  | id :: rest, misses =>
    match probe id with
    | some articleMenuId =>
      let r := scanFrom probe menuFilter rest 0
      (if passes_menu_filter menuFilter articleMenuId then id :: r.1 else r.1,
        id :: r.2)
    | none =>
      if max_consecutive_misses ≤ misses + 1 then ([], [id])
      else
        let r := scanFrom probe menuFilter rest (misses + 1)
        (r.1, id :: r.2)

/-- `scan_new_articles(last_id, menu_id, cookie, max_scan)`: probes
`last_id+1 .. last_id+max_scan` in increasing order. First component: the
returned `new_ids`; second component: the trace of probed ids. -/
def scan_new_articles (probe : Nat → Option Nat) (lastId : Nat)
    (menuFilter : Option Nat) (maxScan : Nat) : List Nat × List Nat :=
  scanFrom probe menuFilter ((List.range maxScan).map (fun o => lastId + 1 + o)) 0

/-- A probe of `id` hits and the found article passes the board filter. -/
def hitAndPasses (probe : Nat → Option Nat) (menuFilter : Option Nat)
    (id : Nat) : Bool :=
  match probe id with
  | some m => passes_menu_filter menuFilter m
  | none => false

/-- Length of the trailing run of misses in a probed-id list: the value the
`consecutive_misses` counter has after those probes when it started at 0. -/
def trailingMisses (probe : Nat → Option Nat) (l : List Nat) : Nat :=
  (l.reverse.takeWhile (fun id => (probe id).isNone)).length

lemma takeWhile_append_of_all (p : α → Bool) (l₁ l₂ : List α)
    (h : l₁.all p) : (l₁ ++ l₂).takeWhile p = l₁ ++ l₂.takeWhile p := by
  induction l₁ with
  | nil => simp
  | cons a t ih =>
    rw [List.all_cons, Bool.and_eq_true] at h
    rw [List.cons_append, List.takeWhile_cons, if_pos h.1, ih h.2,
      List.cons_append]

lemma takeWhile_append_of_not_all (p : α → Bool) (l₁ l₂ : List α)
    (h : ¬ l₁.all p) : (l₁ ++ l₂).takeWhile p = l₁.takeWhile p := by
  induction l₁ with
  | nil => simp at h
  | cons a t ih =>
    rw [List.all_cons, Bool.and_eq_true] at h
    by_cases ha : p a
    · rw [List.cons_append, List.takeWhile_cons, if_pos ha,
        List.takeWhile_cons, if_pos ha, ih (fun ht => h ⟨ha, ht⟩)]
    · rw [List.cons_append, List.takeWhile_cons, if_neg ha,
        List.takeWhile_cons, if_neg ha]

lemma trailingMisses_cons (probe : Nat → Option Nat) (x : Nat) (xs : List Nat) :
    trailingMisses probe (x :: xs) =
      if xs.all (fun id => (probe id).isNone) then
        (if (probe x).isNone then xs.length + 1 else xs.length)
      else trailingMisses probe xs := by
  unfold trailingMisses
  rw [List.reverse_cons]
  by_cases hall : xs.all (fun id => (probe id).isNone)
  · rw [if_pos hall, takeWhile_append_of_all _ _ _ (by rwa [List.all_reverse])]
    by_cases hx : (probe x).isNone
    · rw [if_pos hx]
      simp [List.takeWhile_cons, hx]
    · rw [if_neg hx]
      simp [List.takeWhile_cons, hx]
  · rw [if_neg hall,
      takeWhile_append_of_not_all _ _ _ (by rwa [List.all_reverse])]

lemma trailingMisses_le_length (probe : Nat → Option Nat) (l : List Nat) :
    trailingMisses probe l ≤ l.length := by
  unfold trailingMisses
  calc (l.reverse.takeWhile _).length ≤ l.reverse.length :=
        (List.takeWhile_sublist _).length_le
    _ = l.length := List.length_reverse l

lemma trailingMisses_of_all (probe : Nat → Option Nat) (l : List Nat)
    (h : l.all (fun id => (probe id).isNone)) :
    trailingMisses probe l = l.length := by
  unfold trailingMisses
  rw [List.takeWhile_eq_self_iff.mpr, List.length_reverse]
  intro a ha
  exact (List.all_eq_true.mp h) a (List.mem_reverse.mp ha)

/-- The returned list is the filter of the probed trace by hit-and-passes. -/
lemma scanFrom_fst_eq_filter (probe : Nat → Option Nat) (menuFilter : Option Nat) :
    ∀ (l : List Nat) (m : Nat),
      (scanFrom probe menuFilter l m).1 =
        (scanFrom probe menuFilter l m).2.filter (hitAndPasses probe menuFilter)
  | [], _ => by simp [scanFrom]
  | id :: rest, m => by
    unfold scanFrom
    cases hp : probe id with
    | some menuId =>
      have ih := scanFrom_fst_eq_filter probe menuFilter rest 0
      by_cases hpass : passes_menu_filter menuFilter menuId <;>
        simp [hp, hpass, List.filter_cons, hitAndPasses, ih]
    | none =>
      by_cases hstop : max_consecutive_misses ≤ m + 1
      · simp [hp, hstop, List.filter_cons, hitAndPasses]
      · have ih := scanFrom_fst_eq_filter probe menuFilter rest (m + 1)
        simp [hp, hstop, List.filter_cons, hitAndPasses, ih]

/-- The probed trace is a prefix of the offered id list. -/
lemma scanFrom_snd_isPrefix (probe : Nat → Option Nat) (menuFilter : Option Nat) :
    ∀ (l : List Nat) (m : Nat), (scanFrom probe menuFilter l m).2 <+: l
  | [], _ => by simp [scanFrom]
  | id :: rest, m => by
    unfold scanFrom
    cases hp : probe id with
    | some menuId =>
      exact List.cons_prefix_cons.mpr
        ⟨rfl, scanFrom_snd_isPrefix probe menuFilter rest 0⟩
    | none =>
      by_cases hstop : max_consecutive_misses ≤ m + 1
      · simp only [hstop, if_pos]
        exact ⟨rest, rfl⟩
      · simp only [hstop, if_neg, not_false_iff]
        exact List.cons_prefix_cons.mpr
          ⟨rfl, scanFrom_snd_isPrefix probe menuFilter rest (m + 1)⟩

/-- When the scan stops before exhausting the offered ids, the miss counter
has just reached `max_consecutive_misses`. -/
lemma scanFrom_stop (probe : Nat → Option Nat) (menuFilter : Option Nat) :
    ∀ (l : List Nat) (m : Nat), m < max_consecutive_misses →
      (scanFrom probe menuFilter l m).2.length < l.length →
      (if (scanFrom probe menuFilter l m).2.all (fun id => (probe id).isNone) then
        m + (scanFrom probe menuFilter l m).2.length = max_consecutive_misses
      else trailingMisses probe (scanFrom probe menuFilter l m).2 =
        max_consecutive_misses)
  | [], m => by simp [scanFrom]
  | id :: rest, m => by
    intro hm hlen
    unfold scanFrom at hlen ⊢
    cases hp : probe id with
    | some menuId =>
      simp only [hp] at hlen ⊢
      have hlen' : (scanFrom probe menuFilter rest 0).2.length < rest.length := by
        simpa using hlen
      have ih := scanFrom_stop probe menuFilter rest 0
        (by unfold max_consecutive_misses; omega) hlen'
      have hnotall :
          ¬ ((id :: (scanFrom probe menuFilter rest 0).2).all
              (fun i => (probe i).isNone)) := by
        simp [List.all_cons, hp]
      rw [if_neg hnotall, trailingMisses_cons]
      by_cases hall : (scanFrom probe menuFilter rest 0).2.all
          (fun i => (probe i).isNone)
      · rw [if_pos hall, if_neg (by simp [hp])]
        rw [if_pos hall] at ih
        omega
      · rw [if_neg hall]
        rw [if_neg hall] at ih
        exact ih
    | none =>
      by_cases hstop : max_consecutive_misses ≤ m + 1
      · simp only [hp, hstop, if_pos] at hlen ⊢
        rw [if_pos (by simp [hp])]
        simp only [List.length_cons, List.length_nil]
        omega
      · simp only [hp, hstop, if_neg, not_false_iff] at hlen ⊢
        have hlen' : (scanFrom probe menuFilter rest (m + 1)).2.length <
            rest.length := by simpa using hlen
        have ih := scanFrom_stop probe menuFilter rest (m + 1) (by omega) hlen'
        by_cases hall : (scanFrom probe menuFilter rest (m + 1)).2.all
            (fun i => (probe i).isNone)
        · rw [if_pos hall] at ih
          rw [if_pos (by simp [List.all_cons, hp, hall]), List.length_cons]
          omega
        · rw [if_neg hall] at ih
          rw [if_neg (by simp [List.all_cons, hall]), trailingMisses_cons,
            if_neg hall]
          exact ih
  termination_by l _ => l.length

/-- "As soon as": every strict prefix of the probed trace was still below the
miss limit, so the scan never continued past a stop point. -/
lemma scanFrom_prefix_below (probe : Nat → Option Nat) (menuFilter : Option Nat) :
    ∀ (l : List Nat) (m : Nat), m < max_consecutive_misses →
      ∀ q, q <+: (scanFrom probe menuFilter l m).2 →
        q.length < (scanFrom probe menuFilter l m).2.length →
      (if q.all (fun id => (probe id).isNone) then
        m + q.length < max_consecutive_misses
      else trailingMisses probe q < max_consecutive_misses)
  | [], m => by simp [scanFrom]
  | id :: rest, m => by
    intro hm q hq hqlen
    unfold scanFrom at hq hqlen
    cases hp : probe id with
    | some menuId =>
      simp only [hp] at hq hqlen
      rcases (List.prefix_cons_iff.mp hq) with hnil | ⟨q', rfl, hq'⟩
      · subst hnil
        simp only [List.all_nil, if_pos, List.length_nil]
        omega
      · have hqlen' : q'.length < (scanFrom probe menuFilter rest 0).2.length := by
          simpa using hqlen
        have ih := scanFrom_prefix_below probe menuFilter rest 0
          (by unfold max_consecutive_misses; omega) q' hq' hqlen'
        rw [if_neg (by simp [List.all_cons, hp]), trailingMisses_cons]
        by_cases hall : q'.all (fun i => (probe i).isNone)
        · rw [if_pos hall, if_neg (by simp [hp])]
          rw [if_pos hall] at ih
          omega
        · rw [if_neg hall]
          rw [if_neg hall] at ih
          exact ih
    | none =>
      by_cases hstop : max_consecutive_misses ≤ m + 1
      · simp only [hp, hstop, if_pos] at hq hqlen
        rcases (List.prefix_cons_iff.mp hq) with hnil | ⟨q', rfl, hq'⟩
        · subst hnil
          simp only [List.all_nil, if_pos, List.length_nil]
          omega
        · simp only [List.prefix_nil] at hq'
          subst hq'
          simp at hqlen
      · simp only [hp, hstop, if_neg, not_false_iff] at hq hqlen
        rcases (List.prefix_cons_iff.mp hq) with hnil | ⟨q', rfl, hq'⟩
        · subst hnil
          simp only [List.all_nil, if_pos, List.length_nil]
          omega
        · have hqlen' : q'.length <
              (scanFrom probe menuFilter rest (m + 1)).2.length := by
            simpa using hqlen
          have ih := scanFrom_prefix_below probe menuFilter rest (m + 1)
            (by omega) q' hq' hqlen'
          by_cases hall : q'.all (fun i => (probe i).isNone)
          · rw [if_pos hall] at ih
            rw [if_pos (by simp [List.all_cons, hp, hall]), List.length_cons]
            omega
          · rw [if_neg hall] at ih
            rw [if_neg (by simp [List.all_cons, hall]), trailingMisses_cons,
              if_neg hall]
            exact ih
  termination_by l _ => l.length

/-- The offered id chain `last_id+1 .. last_id+max_scan` is strictly sorted. -/
lemma offered_chain_sorted (lastId maxScan : Nat) :
    ((List.range maxScan).map (fun o => lastId + 1 + o)).Sorted (· < ·) := by
  refine (List.pairwise_map).mpr ?_
  exact (List.pairwise_lt_range maxScan).imp (by omega)

/-- Concrete probe for the spec's scenario: ids 101-105 exist (board id 3),
every other id misses. -/
def scenarioProbe : Nat → Option Nat :=
  fun i => if 101 ≤ i && i ≤ 105 then some 3 else none

/-- C1: for every starting id, board filter and probe behaviour, the scanner
probes `last_id+1 .. last_id+max_scan` in increasing order (its probe trace is
a prefix of that chain), returns exactly the probed ids whose probe succeeded
and passed the board filter, in ascending order, and stops exactly when 50
consecutive probes missed: if it stopped early the trailing run of misses is
50, and no earlier point of the trace had already accumulated 50 consecutive
misses (the counter resets on every hit).  In particular, started at
`last_id = 100` with `max_scan = 200` and hits exactly at 101-105, it returns
`[101, 102, 103, 104, 105]` and its probe trace is `[101, ..., 155]`, never
probing 156 or beyond. -/
theorem scan_new_articles_spec :
    (∀ (probe : Nat → Option Nat) (menuFilter : Option Nat) (lastId maxScan : Nat),
      (scan_new_articles probe lastId menuFilter maxScan).1 =
        (scan_new_articles probe lastId menuFilter maxScan).2.filter
          (hitAndPasses probe menuFilter) ∧
      (scan_new_articles probe lastId menuFilter maxScan).2 <+:
        (List.range maxScan).map (fun o => lastId + 1 + o) ∧
      (scan_new_articles probe lastId menuFilter maxScan).1.Sorted (· < ·) ∧
      ((scan_new_articles probe lastId menuFilter maxScan).2.length < maxScan →
        trailingMisses probe
            (scan_new_articles probe lastId menuFilter maxScan).2 =
          max_consecutive_misses) ∧
      (∀ q, q <+: (scan_new_articles probe lastId menuFilter maxScan).2 →
        q.length < (scan_new_articles probe lastId menuFilter maxScan).2.length →
        trailingMisses probe q < max_consecutive_misses)) ∧
    (scan_new_articles scenarioProbe 100 none 200).1 = [101, 102, 103, 104, 105] ∧
    (scan_new_articles scenarioProbe 100 none 200).2 =
      (List.range 55).map (fun o => 101 + o) := by
  refine ⟨?_, by decide, by decide⟩
  intro probe menuFilter lastId maxScan
  simp only [scan_new_articles]
  have h50 : max_consecutive_misses = 50 := rfl
  have hfil := scanFrom_fst_eq_filter probe menuFilter
    ((List.range maxScan).map (fun o => lastId + 1 + o)) 0
  have hpre := scanFrom_snd_isPrefix probe menuFilter
    ((List.range maxScan).map (fun o => lastId + 1 + o)) 0
  refine ⟨hfil, hpre, ?_, ?_, ?_⟩
  · have hsub : (scanFrom probe menuFilter
        ((List.range maxScan).map (fun o => lastId + 1 + o)) 0).1.Sublist
        ((List.range maxScan).map (fun o => lastId + 1 + o)) := by
      rw [hfil]
      exact (List.filter_sublist _).trans hpre.sublist
    exact List.Pairwise.sublist hsub (offered_chain_sorted lastId maxScan)
  · intro hlen
    have hlen' : (scanFrom probe menuFilter
        ((List.range maxScan).map (fun o => lastId + 1 + o)) 0).2.length <
        ((List.range maxScan).map (fun o => lastId + 1 + o)).length := by
      simpa using hlen
    have hstop := scanFrom_stop probe menuFilter
      ((List.range maxScan).map (fun o => lastId + 1 + o)) 0 (by omega) hlen'
    by_cases hall : (scanFrom probe menuFilter
        ((List.range maxScan).map (fun o => lastId + 1 + o)) 0).2.all
        (fun id => (probe id).isNone)
    · rw [if_pos hall] at hstop
      rw [trailingMisses_of_all probe _ hall]
      omega
    · rw [if_neg hall] at hstop
      exact hstop
  · intro q hq hqlen
    have hbelow := scanFrom_prefix_below probe menuFilter
      ((List.range maxScan).map (fun o => lastId + 1 + o)) 0 (by omega) q hq hqlen
    by_cases hall : q.all (fun id => (probe id).isNone)
    · rw [if_pos hall] at hbelow
      calc trailingMisses probe q ≤ q.length := trailingMisses_le_length probe q
        _ < max_consecutive_misses := by omega
    · rw [if_neg hall] at hbelow
      exact hbelow

/-!
## Data model — posts and comments as fetched from the detail API

Mirrors the dictionary shapes consumed by src/main.py: an article result has
an `article` record (writer, subject, capability flags, board id, raw HTML
body) and a comment list.
-/

structure Writer where
  nick : String
  memberLevel : Int
deriving DecidableEq

structure Comment where
  id : Nat
  writer : Writer
  content : String
deriving DecidableEq

structure Article where
  subject : String
  writer : Writer
  isReadable : Bool
  isWriteComment : Bool
  menuId : Nat
  contentHtml : String
deriving DecidableEq

structure ArticleResult where
  article : Article
  comments : List Comment
deriving DecidableEq

/-!
## EligibilityFilter — `is_eligible_article` (src/main.py 100-130)

`allowed` stands for `config.ALLOWED_MEMBER_LEVELS` (`None` = allow every
member), `botNick` for `config.BOT_NICK`.
-/

/-- `check_bot_already_replied` (main.py 77-84). -/
def check_bot_already_replied (botNick : String) (res : ArticleResult) : Bool :=
  res.comments.any fun c => c.writer.nick == botNick

/-- `is_eligible_article` (main.py 100-130), with the module-level
configuration made explicit parameters. -/
def is_eligible_article (allowed : Option (List Int)) (botNick : String)
    (res : ArticleResult) : Bool :=
  if (match allowed with
      | some levels => !(levels.contains res.article.writer.memberLevel)
      | none => false) then false
  else if !res.article.isReadable then false
  else if !res.article.isWriteComment then false
  else if check_bot_already_replied botNick res then false
  else true

/-- The eligibility decision exactly as the claim words it: an empty or
absent allow-set allows all author tiers. -/
def claimedEligible (allowed : Option (List Int)) (botNick : String)
    (res : ArticleResult) : Bool :=
  (match allowed with
   | none => true
   | some levels =>
     levels.isEmpty || levels.contains res.article.writer.memberLevel) &&
  res.article.isReadable && res.article.isWriteComment &&
  !(res.comments.any fun c => c.writer.nick == botNick)

/-- A plain readable, commentable post with no comments at all. -/
def plainPost : ArticleResult :=
  { article :=
      { subject := "q", writer := { nick := "alice", memberLevel := 110 },
        isReadable := true, isWriteComment := true, menuId := 3,
        contentHtml := "" },
    comments := [] }

/-- C2 counterexample: with a present-but-empty allow-set the claim accepts
the plain post, but `is_eligible_article` rejects it — the code tests
`ALLOWED_MEMBER_LEVELS is not None`, so an empty allow-set rejects every
author tier instead of allowing them all. -/
theorem is_eligible_article_empty_allowset_cex :
    claimedEligible (some []) "bot" plainPost = true ∧
    is_eligible_article (some []) "bot" plainPost = false := by
  exact ⟨rfl, rfl⟩

/-- C2 (amended): the filter accepts a post iff the allow-set is absent or
contains the author's tier (a present-but-empty allow-set therefore rejects
everything), the post is readable, commenting is enabled, and no existing
comment is authored under the bot's nick; in particular a post already
holding a bot comment is always rejected.  As a Lean function of the fetched
post it is pure by construction. -/
theorem is_eligible_article_spec (allowed : Option (List Int))
    (botNick : String) (res : ArticleResult) :
    (is_eligible_article allowed botNick res =
      ((match allowed with
        | none => true
        | some levels => levels.contains res.article.writer.memberLevel) &&
       res.article.isReadable && res.article.isWriteComment &&
       !(res.comments.any fun c => c.writer.nick == botNick))) ∧
    (check_bot_already_replied botNick res = true →
      is_eligible_article allowed botNick res = false) := by
  constructor
  · cases allowed with
    | none =>
      cases hr : res.article.isReadable <;>
        cases hw : res.article.isWriteComment <;>
          cases hb : res.comments.any (fun c => c.writer.nick == botNick) <;>
            simp [is_eligible_article, check_bot_already_replied, hr, hw, hb]
    | some levels =>
      cases hl : levels.contains res.article.writer.memberLevel <;>
        cases hr : res.article.isReadable <;>
          cases hw : res.article.isWriteComment <;>
            cases hb : res.comments.any (fun c => c.writer.nick == botNick) <;>
              simp [is_eligible_article, check_bot_already_replied, hl, hr, hw, hb]
  · intro hb
    unfold is_eligible_article
    rw [hb]
    cases allowed <;> simp

/-!
## WatchRegistry — the per-entry step of `check_watched_articles`
(src/main.py 236-363; the expiry sweep is lines 365-370)

The HTML cleaner (`clean_html`, `clean_comment_content` from
modules/html_processor.py) and the follow-up generator
(`generator.generate_followup_reply`) are collaborators passed in as oracle
functions; an empty string from the generator means "generation failed".
-/

/-- `WATCH_MAX_CHECKS = 30` (main.py line 32). -/
def WATCH_MAX_CHECKS : Int := 30

/-- One value of `state["watched_articles"]` (main.py 202-208). -/
structure WatchInfo where
  writer_nick : String
  subject : String
  last_comment_count : Nat
  checks_remaining : Int
  added_at : String
deriving DecidableEq

/-- `_get_bot_comment_ids` (main.py 87-97): ids of bot-authored comments,
skipping a missing/zero id. -/
def get_bot_comment_ids (botNick : String) (comments : List Comment) :
    List Nat :=
  comments.filterMap fun c =>
    if c.writer.nick == botNick && c.id != 0 then some c.id else none

/-- The post-author comments located after the bot's last word
(main.py 281-293): author comments with id above the maximum bot comment id
and non-empty cleaned content, kept as (id, cleaned content). -/
def new_author_comments (cleanComment : String → String) (writerNick : String)
    (maxBotId : Nat) (comments : List Comment) : List (Nat × String) :=
  comments.filterMap fun c =>
    if c.writer.nick == writerNick && maxBotId < c.id &&
        cleanComment c.content != "" then
      some (c.id, cleanComment c.content)
    else none

/-- One entry of the transcript handed to the follow-up generator. -/
structure ConvEntry where
  nick : String
  content : String
  is_bot : Bool
deriving DecidableEq

/-- The chronological bot/author transcript (main.py 307-320). -/
def conversation_history (cleanComment : String → String)
    (botNick writerNick : String) (comments : List Comment) : List ConvEntry :=
  comments.filterMap fun c =>
    if cleanComment c.content == "" then none
    else if c.writer.nick == botNick || c.writer.nick == writerNick then
      some { nick := c.writer.nick, content := cleanComment c.content,
             is_bot := c.writer.nick == botNick }
    else none

/-- The argument record of `generator.generate_followup_reply`
(main.py 331-337). -/
structure FollowupArgs where
  subject : String
  content : String
  conversation_history : List ConvEntry
  new_comment : String
  commenter_nick : String
deriving DecidableEq

/-- Outcome of one watch-check cycle for one entry: either the entry key was
appended to `to_remove` (and is deleted at the end of the pass) or it stays
with updated fields. -/
inductive WatchStep where
  | removed
  | kept (w : WatchInfo)
deriving DecidableEq

/-- The body of the `for article_id_str, watch_info in ...` loop of
`check_watched_articles` (main.py 236-363) for a single entry.  `fetch` is
the outcome of `get_article_detail`; `genFollowup` the follow-up generator;
`dryRun` the `--dry-run` flag.  The comment-posting attempt itself does not
influence the stored fields beyond the `dryRun` count adjustment
(main.py 360-361). -/
def check_watched_entry (botNick : String)
    (cleanHtml cleanComment : String → String)
    (genFollowup : FollowupArgs → String) (dryRun : Bool)
    (fetch : Option ArticleResult) (w : WatchInfo) : WatchStep :=
  if w.checks_remaining ≤ 0 then .removed
  else
    match fetch with
    | none => .kept { w with checks_remaining := w.checks_remaining - 1 }
    | some res =>
      if res.comments.length ≤ w.last_comment_count then
        .kept { w with checks_remaining := w.checks_remaining - 1 }
      else
        if (get_bot_comment_ids botNick res.comments).isEmpty then .removed
        else
          if (new_author_comments cleanComment w.writer_nick
              ((get_bot_comment_ids botNick res.comments).foldl max 0)
              res.comments).isEmpty then
            .kept { w with last_comment_count := res.comments.length,
                           checks_remaining := w.checks_remaining - 1 }
          else
            if genFollowup
                { subject := w.subject,
                  content := cleanHtml res.article.contentHtml,
                  conversation_history :=
                    conversation_history cleanComment botNick w.writer_nick
                      res.comments,
                  new_comment :=
                    ((new_author_comments cleanComment w.writer_nick
                      ((get_bot_comment_ids botNick res.comments).foldl max 0)
                      res.comments).getLastD (0, "")).2,
                  commenter_nick := w.writer_nick } == "" then
              .kept { w with last_comment_count := res.comments.length,
                             checks_remaining := w.checks_remaining - 1 }
            else
              .kept { w with
                        last_comment_count :=
                          res.comments.length + (if dryRun then 0 else 1),
                        checks_remaining := WATCH_MAX_CHECKS }

/-- C4: for an active entry (positive remaining budget), the budget decreases
by exactly one on every cycle in which no qualifying new author comment was
acted on — detail fetch failed, comment count unchanged, or only
third-party/content-empty comments appeared — and is reset to
`WATCH_MAX_CHECKS = 30` on any cycle in which a follow-up reply attempt is
made (the generator produced a non-empty reply), regardless of dry-run mode
and of whether the posting succeeds. -/
theorem check_watched_entry_budget (botNick : String)
    (cleanHtml cleanComment : String → String)
    (genFollowup : FollowupArgs → String) (dryRun : Bool) (w : WatchInfo)
    (hact : 0 < w.checks_remaining) :
    (check_watched_entry botNick cleanHtml cleanComment genFollowup dryRun
        none w =
      .kept { w with checks_remaining := w.checks_remaining - 1 }) ∧
    (∀ res : ArticleResult, res.comments.length ≤ w.last_comment_count →
      check_watched_entry botNick cleanHtml cleanComment genFollowup dryRun
          (some res) w =
        .kept { w with checks_remaining := w.checks_remaining - 1 }) ∧
    (∀ res : ArticleResult, w.last_comment_count < res.comments.length →
      (get_bot_comment_ids botNick res.comments).isEmpty = false →
      (new_author_comments cleanComment w.writer_nick
        ((get_bot_comment_ids botNick res.comments).foldl max 0)
        res.comments).isEmpty = true →
      check_watched_entry botNick cleanHtml cleanComment genFollowup dryRun
          (some res) w =
        .kept { w with last_comment_count := res.comments.length,
                       checks_remaining := w.checks_remaining - 1 }) ∧
    (∀ res : ArticleResult, w.last_comment_count < res.comments.length →
      (get_bot_comment_ids botNick res.comments).isEmpty = false →
      (new_author_comments cleanComment w.writer_nick
        ((get_bot_comment_ids botNick res.comments).foldl max 0)
        res.comments).isEmpty = false →
      genFollowup
          { subject := w.subject,
            content := cleanHtml res.article.contentHtml,
            conversation_history :=
              conversation_history cleanComment botNick w.writer_nick
                res.comments,
            new_comment :=
              ((new_author_comments cleanComment w.writer_nick
                ((get_bot_comment_ids botNick res.comments).foldl max 0)
                res.comments).getLastD (0, "")).2,
            commenter_nick := w.writer_nick } ≠ "" →
      check_watched_entry botNick cleanHtml cleanComment genFollowup dryRun
          (some res) w =
        .kept { w with
                  last_comment_count :=
                    res.comments.length + (if dryRun then 0 else 1),
                  checks_remaining := WATCH_MAX_CHECKS }) ∧
    (∀ res : ArticleResult, w.last_comment_count < res.comments.length →
      (get_bot_comment_ids botNick res.comments).isEmpty = false →
      (new_author_comments cleanComment w.writer_nick
        ((get_bot_comment_ids botNick res.comments).foldl max 0)
        res.comments).isEmpty = false →
      genFollowup
          { subject := w.subject,
            content := cleanHtml res.article.contentHtml,
            conversation_history :=
              conversation_history cleanComment botNick w.writer_nick
                res.comments,
            new_comment :=
              ((new_author_comments cleanComment w.writer_nick
                ((get_bot_comment_ids botNick res.comments).foldl max 0)
                res.comments).getLastD (0, "")).2,
            commenter_nick := w.writer_nick } = "" →
      check_watched_entry botNick cleanHtml cleanComment genFollowup dryRun
          (some res) w =
        .kept { w with last_comment_count := res.comments.length,
                       checks_remaining := w.checks_remaining - 1 }) := by
  refine ⟨?_, ?_, ?_, ?_, ?_⟩
  · unfold check_watched_entry
    rw [if_neg (by omega)]
  · intro res hcount
    unfold check_watched_entry
    rw [if_neg (by omega)]
    simp only [if_pos hcount]
  · intro res hcount hbot hnew
    unfold check_watched_entry
    rw [if_neg (by omega)]
    simp only [if_neg (by omega : ¬ res.comments.length ≤ w.last_comment_count),
      hbot, Bool.false_eq_true, if_false, hnew, if_true]
  · intro res hcount hbot hnew hgen
    unfold check_watched_entry
    rw [if_neg (by omega)]
    simp only [if_neg (by omega : ¬ res.comments.length ≤ w.last_comment_count),
      hbot, Bool.false_eq_true, if_false, hnew]
    rw [if_neg (by simpa using hgen)]
  · intro res hcount hbot hnew hgen
    unfold check_watched_entry
    rw [if_neg (by omega)]
    simp only [if_neg (by omega : ¬ res.comments.length ≤ w.last_comment_count),
      hbot, Bool.false_eq_true, if_false, hnew]
    rw [if_pos (beq_iff_eq.mpr hgen)]

/-- A five-checks-remaining entry used to instantiate the budget theorem. -/
def watchW0 : WatchInfo :=
  { writer_nick := "alice", subject := "q", last_comment_count := 1,
    checks_remaining := 5, added_at := "t" }

/-- C4 witness: the budget theorem applied at a concrete active entry whose
detail fetch failed — the budget drops from 5 to 4. -/
theorem check_watched_entry_budget_witness :
    0 < watchW0.checks_remaining ∧
    check_watched_entry "bot" id id (fun _ => "r") false none watchW0 =
      WatchStep.kept
        { watchW0 with checks_remaining := watchW0.checks_remaining - 1 } :=
  ⟨by decide,
    (check_watched_entry_budget "bot" id id (fun _ => "r") false watchW0
      (by decide)).1⟩

/-- A post with two comments, the second one by the bot. -/
def watchRes1 : ArticleResult :=
  { article :=
      { subject := "q", writer := { nick := "alice", memberLevel := 110 },
        isReadable := true, isWriteComment := true, menuId := 3,
        contentHtml := "" },
    comments :=
      [ { id := 1, writer := { nick := "alice", memberLevel := 110 },
          content := "hi" },
        { id := 2, writer := { nick := "bot", memberLevel := 999 },
          content := "re" } ] }

/-- An entry with one check left that has already seen both comments. -/
def watchW1 : WatchInfo :=
  { writer_nick := "alice", subject := "q", last_comment_count := 2,
    checks_remaining := 1, added_at := "t" }

/-- C5 counterexample: an entry with `checks_remaining = 1` that sees no new
comments this cycle is NOT removed after this cycle — it is kept with budget
0 and only removed when it is next examined. -/
theorem check_watched_entry_expiry_cex :
    check_watched_entry "bot" id id (fun _ => "") false (some watchRes1)
        watchW1 ≠ WatchStep.removed ∧
    check_watched_entry "bot" id id (fun _ => "") false (some watchRes1)
        watchW1 = WatchStep.kept { watchW1 with checks_remaining := 0 } := by
  exact ⟨by decide, by decide⟩

/-- C5 (amended): an entry is removed when it is examined with its budget
already exhausted (≤ 0), or when the comment count grew but the bot's own
comment has vanished; an entry with `checks_remaining = 1` seeing no new
comments this cycle is kept with budget 0 this cycle, and is removed on the
next cycle in which it is examined, whatever that cycle's fetch returns. -/
theorem check_watched_entry_removal (botNick : String)
    (cleanHtml cleanComment : String → String)
    (genFollowup : FollowupArgs → String) (dryRun : Bool) (w : WatchInfo) :
    (w.checks_remaining ≤ 0 → ∀ fetch,
      check_watched_entry botNick cleanHtml cleanComment genFollowup dryRun
        fetch w = .removed) ∧
    (0 < w.checks_remaining → ∀ res : ArticleResult,
      w.last_comment_count < res.comments.length →
      (get_bot_comment_ids botNick res.comments).isEmpty = true →
      check_watched_entry botNick cleanHtml cleanComment genFollowup dryRun
        (some res) w = .removed) ∧
    (w.checks_remaining = 1 → ∀ res : ArticleResult,
      res.comments.length ≤ w.last_comment_count →
      check_watched_entry botNick cleanHtml cleanComment genFollowup dryRun
          (some res) w = .kept { w with checks_remaining := 0 } ∧
      (∀ fetch2,
        check_watched_entry botNick cleanHtml cleanComment genFollowup dryRun
          fetch2 { w with checks_remaining := 0 } = .removed)) := by
  refine ⟨?_, ?_, ?_⟩
  · intro hdone fetch
    unfold check_watched_entry
    rw [if_pos hdone]
  · intro hact res hcount hbot
    unfold check_watched_entry
    rw [if_neg (by omega)]
    simp only [if_neg (by omega : ¬ res.comments.length ≤ w.last_comment_count),
      hbot, if_true]
  · intro hone res hcount
    constructor
    · unfold check_watched_entry
      rw [if_neg (by omega)]
      simp only [if_pos hcount, hone]
      norm_num
    · intro fetch2
      unfold check_watched_entry
      rw [if_pos (by simp)]

/-!
## KnowledgeIndex — modules/priority_knowledge.py

Character-level processing: Python `str` values appear as `List Char` here.
-/

/-- Python string (character list) in this section. -/
abbrev Str := List Char

/-- ASCII whitespace as matched by the `\s` class on this code's inputs. -/
def isPySpace (c : Char) : Bool :=
  c == ' ' || c == '\t' || c == '\n' || c == '\r' || c == '\x0b' || c == '\x0c'

/-- The substitution step of `_normalize_text` (priority_knowledge.py 19-20):
every maximal whitespace run becomes one blank; the flag remembers whether
the previous character was whitespace. -/
def collapseGo : Bool → Str → Str
  | _, [] => []
  | prevSpace, c :: rest =>
    if isPySpace c then
      if prevSpace then collapseGo true rest
      else ' ' :: collapseGo true rest
    else c :: collapseGo false rest

/-- Python `str.strip()`. -/
def pyStrip (l : Str) : Str :=
  ((l.dropWhile isPySpace).reverse.dropWhile isPySpace).reverse

/-- `_normalize_text` (priority_knowledge.py 19-20). -/
def normalize_text (l : Str) : Str := pyStrip (collapseGo false l)

/-- Membership in the token character class `[0-9A-Za-z가-힣_./:-]`
(priority_knowledge.py line 25). -/
def isTokenChar (c : Char) : Bool :=
  ('0' ≤ c && c ≤ '9') || ('a' ≤ c && c ≤ 'z') || ('A' ≤ c && c ≤ 'Z') ||
  ('가' ≤ c && c ≤ '힣') ||
  c == '_' || c == '.' || c == '/' || c == ':' || c == '-'

/-- `re.findall` of maximal token-character runs: `cur` holds the current run
reversed. -/
def runsGo (cur : Str) : Str → List Str
  | [] => if cur.isEmpty then [] else [cur.reverse]
  | c :: rest =>
    if isTokenChar c then runsGo (c :: cur) rest
    else if cur.isEmpty then runsGo [] rest
    else cur.reverse :: runsGo [] rest

/-- `_tokenize` (priority_knowledge.py 23-26): lower-case, take the maximal
token-character runs, keep those of length ≥ 2, as a set (deduplicated). -/
def tokenize (l : Str) : List Str :=
  ((runsGo [] (l.map Char.toLower)).filter (fun t => 2 ≤ t.length)).dedup

/-- Cardinality of `q_tokens & chunk_tokens` for deduplicated token lists. -/
def overlapCount (qTokens cTokens : List Str) : Nat :=
  (qTokens.filter (fun t => cTokens.contains t)).length

/-- Python substring test `needle in hay`. -/
def isInfixB (needle : Str) : Str → Bool
  | [] => needle.isEmpty
  | c :: rest => needle.isPrefixOf (c :: rest) || isInfixB needle rest

/-- `KnowledgeChunk` (priority_knowledge.py 96-102). -/
structure KnowledgeChunk where
  source_file : Str
  section_title : Str
  text : Str
  normalized : Str
  tokens : List Str
deriving DecidableEq

/-- `PriorityKnowledge._add_sections` (priority_knowledge.py 118-131):
sections whose normalized text is shorter than 40 characters are dropped;
the rest become chunks. -/
def add_sections (sourceFile : Str) (sections : List (Str × Str)) :
    List KnowledgeChunk :=
  sections.filterMap fun s =>
    if (normalize_text s.2).length < 40 then none
    else some
      { source_file := sourceFile, section_title := s.1,
        text := pyStrip s.2,
        normalized := (normalize_text s.2).map Char.toLower,
        tokens := tokenize s.2 }

/-- The `overlap` value after the short-prefix fallback
(retrieve_context, priority_knowledge.py 243-249). -/
def effOverlap (qTokens : List Str) (qNorm : Str) (c : KnowledgeChunk) : Nat :=
  if overlapCount qTokens c.tokens = 0 then
    if !(qNorm.take 20).isEmpty && isInfixB (qNorm.take 20) c.normalized then 1
    else 0
  else overlapCount qTokens c.tokens

/-- Score of one chunk (priority_knowledge.py 242-255); `none` = excluded.
The score `overlap + phrase bonus` is a whole number, kept as `Nat`. -/
def scoreChunk (qTokens : List Str) (qNorm : Str) (c : KnowledgeChunk) :
    Option Nat :=
  if effOverlap qTokens qNorm c = 0 then none
  else some (effOverlap qTokens qNorm c +
    (if isInfixB qNorm c.normalized then 2 else 0))

/-- Stable descending insertion, modelling Python's stable
`scored.sort(key=lambda x: x[0], reverse=True)`. -/
def insertDesc (x : Nat × KnowledgeChunk) :
    List (Nat × KnowledgeChunk) → List (Nat × KnowledgeChunk)
  | [] => [x]
  | y :: rest => if y.1 ≤ x.1 then x :: y :: rest else y :: insertDesc x rest

def sortDesc (l : List (Nat × KnowledgeChunk)) : List (Nat × KnowledgeChunk) :=
  l.foldr insertDesc []

/-- The ranked, truncated candidate list `picked`
(priority_knowledge.py 232-261): empty when the index is unloaded or has no
chunks, or the query normalizes to nothing. -/
def retrievePicked (loaded : Bool) (chunks : List KnowledgeChunk)
    (query : Str) (topK : Nat) : List (Nat × KnowledgeChunk) :=
  if !loaded || chunks.isEmpty then []
  else if ((normalize_text query).map Char.toLower).isEmpty then []
  else
    (sortDesc (chunks.filterMap fun c =>
      (scoreChunk (tokenize query) ((normalize_text query).map Char.toLower)
        c).map (fun s => (s, c)))).take (max 1 topK)

def natToStr (n : Nat) : Str := (toString n).data

/-- Python `"%.1f"` of the whole-number score. -/
def formatScore (s : Nat) : Str := natToStr s ++ ".0".data

/-- One labeled reference block (priority_knowledge.py 264-270). -/
def formatPart (idx : Nat) (p : Nat × KnowledgeChunk) : Str :=
  "--- 참고 ".data ++ natToStr idx ++
  " (출처: priority_local, 점수: ".data ++ formatScore p.1 ++ ") ---\n파일: ".data ++
  p.2.source_file ++ "\n섹션: ".data ++ p.2.section_title ++ "\n\n".data ++
  p.2.text

/-- Python `sep.join(parts)`. -/
def joinParts (sep : Str) : List Str → Str
  | [] => []
  | [x] => x
  | x :: y :: rest => x ++ sep ++ joinParts sep (y :: rest)

/-- `PriorityKnowledge.retrieve_context` (priority_knowledge.py 232-271):
the labeled blocks of the picked chunks joined by blank lines; the empty
string whenever nothing was picked. -/
def retrieve_context (loaded : Bool) (chunks : List KnowledgeChunk)
    (query : Str) (topK : Nat) : Str :=
  joinParts "\n\n".data
    ((List.enumFrom 1 (retrievePicked loaded chunks query topK)).map
      (fun ip => formatPart ip.1 ip.2))

lemma insertDesc_perm (x : Nat × KnowledgeChunk)
    (l : List (Nat × KnowledgeChunk)) :
    List.Perm (insertDesc x l) (x :: l) := by
  induction l with
  | nil => rfl
  | cons y rest ih =>
    unfold insertDesc
    by_cases h : y.1 ≤ x.1
    · rw [if_pos h]
    · rw [if_neg h]
      exact (ih.cons y).trans (List.Perm.swap x y rest)

lemma sortDesc_perm (l : List (Nat × KnowledgeChunk)) :
    List.Perm (sortDesc l) l := by
  induction l with
  | nil => rfl
  | cons x rest ih => exact (insertDesc_perm x (sortDesc rest)).trans (ih.cons x)

lemma mem_insertDesc {z x : Nat × KnowledgeChunk}
    {l : List (Nat × KnowledgeChunk)} :
    z ∈ insertDesc x l ↔ z = x ∨ z ∈ l := by
  simpa using (insertDesc_perm x l).mem_iff

lemma insertDesc_sorted (x : Nat × KnowledgeChunk)
    (l : List (Nat × KnowledgeChunk))
    (h : l.Pairwise (fun a b => b.1 ≤ a.1)) :
    (insertDesc x l).Pairwise (fun a b => b.1 ≤ a.1) := by
  induction l with
  | nil => simp [insertDesc]
  | cons y rest ih =>
    rcases List.pairwise_cons.mp h with ⟨hy, hrest⟩
    unfold insertDesc
    by_cases hxy : y.1 ≤ x.1
    · rw [if_pos hxy]
      refine List.pairwise_cons.mpr ⟨?_, h⟩
      intro z hz
      rcases List.mem_cons.mp hz with rfl | hz'
      · exact hxy
      · exact le_trans (hy z hz') hxy
    · rw [if_neg hxy]
      refine List.pairwise_cons.mpr ⟨?_, ih hrest⟩
      intro z hz
      rcases mem_insertDesc.mp hz with rfl | hz'
      · omega
      · exact hy z hz'

lemma sortDesc_sorted (l : List (Nat × KnowledgeChunk)) :
    (sortDesc l).Pairwise (fun a b => b.1 ≤ a.1) := by
  induction l with
  | nil => simp [sortDesc]
  | cons x rest ih => exact insertDesc_sorted x _ ih

lemma scoreChunk_pos (qT : List Str) (qN : Str) (c : KnowledgeChunk) (s : Nat)
    (h : scoreChunk qT qN c = some s) : 1 ≤ s := by
  unfold scoreChunk at h
  by_cases h0 : effOverlap qT qN c = 0
  · rw [if_pos h0] at h
    cases h
  · rw [if_neg h0] at h
    injection h with h1
    omega

lemma retrievePicked_mem {loaded : Bool} {chunks : List KnowledgeChunk}
    {query : Str} {topK : Nat} {p : Nat × KnowledgeChunk}
    (hp : p ∈ retrievePicked loaded chunks query topK) :
    ∃ c ∈ chunks,
      scoreChunk (tokenize query) ((normalize_text query).map Char.toLower) c =
        some p.1 ∧ p.2 = c := by
  unfold retrievePicked at hp
  split at hp
  · cases hp
  · split at hp
    · cases hp
    · have hmem := (sortDesc_perm _).mem_iff.mp (List.mem_of_mem_take hp)
      rcases List.mem_filterMap.mp hmem with ⟨c, hc, hsc⟩
      cases hmap : scoreChunk (tokenize query)
          ((normalize_text query).map Char.toLower) c with
      | none => rw [hmap] at hsc; cases hsc
      | some s =>
        rw [hmap] at hsc
        injection hsc with h1
        refine ⟨c, hc, ?_, ?_⟩
        · rw [hmap, ← h1]
        · rw [← h1]

lemma retrievePicked_length (loaded : Bool) (chunks : List KnowledgeChunk)
    (query : Str) (topK : Nat) :
    (retrievePicked loaded chunks query topK).length ≤ max 1 topK := by
  unfold retrievePicked
  split
  · simp
  · split
    · simp
    · exact List.length_take_le _ _

/-- The refund reference section used as a concrete loaded index. -/
def refundSection : Str := "policy allows refunds within 30 days of purchase".data

def refundChunks : List KnowledgeChunk :=
  add_sections "refunds.md".data [("Refunds".data, refundSection)]

def refundQuery : Str := "refund policy".data

/-- C3 counterexample: on a loaded one-chunk index whose chunk matches the
query, `top_k = 0` still yields one picked chunk — `scored[:max(1, top_k)]`
returns at most `max(1, k)` chunks, not at most `k`. -/
theorem retrieve_context_topk_cex :
    (retrievePicked true refundChunks refundQuery 0).length = 1 ∧
    ¬ (retrievePicked true refundChunks refundQuery 0).length ≤ 0 ∧
    retrieve_context true refundChunks refundQuery 0 ≠ [] := by
  exact ⟨by decide, by decide, by decide⟩

/-- C3 (amended): `retrieve_context` picks at most `max 1 top_k` chunks — at
most `top_k` whenever `top_k ≥ 1`, but one chunk rather than none when
`top_k = 0` — every picked chunk has score ≥ 1 (token overlap, or 1 via the
short-prefix fallback, plus the phrase bonus), the picked list is sorted by
non-increasing score, and the result is the empty string whenever the index
is unloaded, has no chunks, or the query normalizes to the empty string.
Retrieval is a pure function of the chunk list and query, so a reload that
rebuilds identical chunks yields the identical ranked result. -/
theorem retrieve_context_spec (loaded : Bool) (chunks : List KnowledgeChunk)
    (query : Str) (topK : Nat) :
    (retrievePicked loaded chunks query topK).length ≤ max 1 topK ∧
    (1 ≤ topK → (retrievePicked loaded chunks query topK).length ≤ topK) ∧
    (∀ p ∈ retrievePicked loaded chunks query topK, 1 ≤ p.1) ∧
    (retrievePicked loaded chunks query topK).Pairwise (fun a b => b.1 ≤ a.1) ∧
    (loaded = false → retrieve_context loaded chunks query topK = []) ∧
    (chunks = [] → retrieve_context loaded chunks query topK = []) ∧
    ((normalize_text query).isEmpty = true →
      retrieve_context loaded chunks query topK = []) := by
  refine ⟨retrievePicked_length loaded chunks query topK, ?_, ?_, ?_, ?_, ?_, ?_⟩
  · intro h1
    have h := retrievePicked_length loaded chunks query topK
    rwa [Nat.max_eq_right h1] at h
  · intro p hp
    rcases retrievePicked_mem hp with ⟨c, _, hsc, _⟩
    exact scoreChunk_pos _ _ _ _ hsc
  · unfold retrievePicked
    split
    · simp
    · split
      · simp
      · exact List.Pairwise.sublist (List.take_sublist _ _) (sortDesc_sorted _)
  · intro hl
    subst hl
    have hp : retrievePicked false chunks query topK = [] := by
      unfold retrievePicked
      simp
    simp [retrieve_context, hp, List.enumFrom, joinParts]
  · intro hc
    subst hc
    have hp : retrievePicked loaded [] query topK = [] := by
      unfold retrievePicked
      simp
    simp [retrieve_context, hp, List.enumFrom, joinParts]
  · intro hq
    have hq' : normalize_text query = [] := List.isEmpty_iff.mp hq
    have hp : retrievePicked loaded chunks query topK = [] := by
      unfold retrievePicked
      split
      · rfl
      · rw [if_pos (by simp [hq'])]
    simp [retrieve_context, hp, List.enumFrom, joinParts]

/-!
### C8 — chunk token sets

`_add_sections` keeps a section as soon as its normalized text has length ≥
40; nothing forces the tokenizer to find a run of two adjacent token
characters in it, so a surviving chunk can have an empty token set.
-/

/-- Some two adjacent token-class characters occur in the string. -/
def hasAdjTokenChars : Str → Bool
  | [] => false
  | [_] => false
  | a :: b :: rest =>
    (isTokenChar a && isTokenChar b) || hasAdjTokenChars (b :: rest)

lemma filter_cons_ne_nil (p : α → Bool) (x : α) (l : List α)
    (h : l.filter p ≠ []) : (x :: l).filter p ≠ [] := by
  rw [List.filter_cons]
  split
  · simp
  · exact h

lemma runsGo_filter_ne_of_cur (rest : Str) : ∀ cur : Str, 2 ≤ cur.length →
    (runsGo cur rest).filter (fun t => 2 ≤ t.length) ≠ [] := by
  induction rest with
  | nil =>
    intro cur hcur
    unfold runsGo
    rw [if_neg (by rw [List.isEmpty_iff]; rintro rfl; simp at hcur)]
    simp only [List.filter_cons, List.filter_nil]
    rw [if_pos (by simpa using hcur)]
    simp
  | cons c r ih =>
    intro cur hcur
    unfold runsGo
    by_cases hc : isTokenChar c
    · rw [if_pos hc]
      exact ih (c :: cur) (by simp; omega)
    · rw [if_neg hc,
        if_neg (by rw [List.isEmpty_iff]; rintro rfl; simp at hcur)]
      simp only [List.filter_cons]
      rw [if_pos (by simpa using hcur)]
      simp

lemma hasAdj_runs (l : Str) : hasAdjTokenChars l = true →
    ∀ cur : Str, (runsGo cur l).filter (fun t => 2 ≤ t.length) ≠ [] := by
  induction l with
  | nil => intro h; cases h
  | cons a rest ih =>
    intro h cur
    cases rest with
    | nil => exact absurd h (by simp [hasAdjTokenChars])
    | cons b r =>
      rw [hasAdjTokenChars] at h
      rcases (by simpa [Bool.and_eq_true] using h :
          (isTokenChar a = true ∧ isTokenChar b = true) ∨
            hasAdjTokenChars (b :: r) = true) with ⟨ha, hb⟩ | hr
      · unfold runsGo
        rw [if_pos ha]
        unfold runsGo
        rw [if_pos hb]
        exact runsGo_filter_ne_of_cur r (b :: a :: cur) (by simp)
      · unfold runsGo
        by_cases ha : isTokenChar a
        · rw [if_pos ha]
          exact ih hr (a :: cur)
        · rw [if_neg ha]
          by_cases hcur : cur.isEmpty
          · rw [if_pos hcur]
            exact ih hr []
          · rw [if_neg hcur]
            exact filter_cons_ne_nil _ _ _ (ih hr [])

lemma tokenize_ne_nil (l : Str)
    (h : hasAdjTokenChars (l.map Char.toLower) = true) : tokenize l ≠ [] := by
  unfold tokenize
  intro hnil
  exact hasAdj_runs (l.map Char.toLower) h [] ((List.dedup_eq_nil _).mp hnil)

/-- 21 question marks separated by blanks: 41 characters, normalized length
41 ≥ 40, yet no token-class character at all. -/
def punctSection : Str := "? ? ? ? ? ? ? ? ? ? ? ? ? ? ? ? ? ? ? ? ?".data

/-- C8 counterexample: this section survives the minimum-length filter (one
chunk is built, normalized length 41) and its token set is empty — the
length filter alone does not force a non-empty token set. -/
theorem add_sections_empty_tokens_cex :
    (add_sections "bad.md".data [("sec".data, punctSection)]).map
      (fun c => (c.tokens, c.normalized.length)) = [([], 41)] := by
  decide

/-- C8 (amended): a section that passes the minimum-length filter becomes
exactly one chunk whose token set is derived deterministically from its
text, and that token set is non-empty provided the text contains two
adjacent token-class characters (a maximal token run of length ≥ 2); without
such a pair the chunk can survive with an empty token set. -/
theorem add_sections_tokens_spec (sourceFile title text : Str)
    (hlen : ¬ (normalize_text text).length < 40)
    (hadj : hasAdjTokenChars (text.map Char.toLower) = true) :
    add_sections sourceFile [(title, text)] =
      [{ source_file := sourceFile, section_title := title,
         text := pyStrip text,
         normalized := (normalize_text text).map Char.toLower,
         tokens := tokenize text }] ∧
    tokenize text ≠ [] := by
  constructor
  · unfold add_sections
    simp only [List.filterMap_cons, List.filterMap_nil, if_neg hlen]
  · exact tokenize_ne_nil text hadj

/-- C8 witness: the amended theorem applied to the refund section, whose
text has plenty of adjacent token characters. -/
theorem add_sections_tokens_spec_witness :
    (¬ (normalize_text refundSection).length < 40) ∧
    hasAdjTokenChars (refundSection.map Char.toLower) = true ∧
    tokenize refundSection ≠ [] :=
  ⟨by decide, by decide,
    (add_sections_tokens_spec "refunds.md".data "Refunds".data refundSection
      (by decide) (by decide)).2⟩

/-!
## ReplyOrchestrator — modules/reply_generator.py

The Anthropic API is an oracle `api : ApiRequest → Except Unit Message`; an
`.error` value models a raised exception.  `_clean_reply` is a pure text
post-processing step passed in as a function `cleanReply`, and
`context_lookup` a fallible oracle (its exceptions are caught inside
`_resolve_reference_payload`).
-/

/-- Tool-call input fields the code reads from a `tool_use` block
(reply_generator.py 246-254); `none` models a non-dict `input`. -/
structure ToolInput where
  query : Option String
  maxChars : Option Int
deriving DecidableEq

/-- One content block of an API message. -/
structure Block where
  type : String
  name : String
  id : String
  text : String
  input : Option ToolInput
deriving DecidableEq

structure Message where
  stopReason : String
  content : List Block
deriving DecidableEq

/-- Chat message content: plain text, assistant blocks, or a tool-result
list (tool_use_id and payload). -/
inductive MsgContent where
  | text (s : String)
  | blocks (bs : List Block)
  | toolResults (rs : List (String × String))
deriving DecidableEq

structure ChatMsg where
  role : String
  content : MsgContent
deriving DecidableEq

/-- The kwargs assembled by `_build_request_kwargs`
(reply_generator.py 133-160): which optional features are attached, whether
the reference tool is offered, and the conversation. -/
structure ApiRequest where
  mcp : Bool
  thinking : Bool
  tools : Bool
  messages : List ChatMsg
deriving DecidableEq

/-- Static generator configuration (reply_generator.py 29-42). -/
structure GenConfig where
  enableToolUse : Bool
  enableThinking : Bool
  hasMcpServers : Bool
  toolMaxContextChars : Int
deriving DecidableEq

def REFERENCE_TOOL_NAME : String := "get_priority_reference"

def build_request_kwargs (cfg : GenConfig) (messages : List ChatMsg)
    (tools : Bool) : ApiRequest :=
  { mcp := cfg.hasMcpServers, thinking := cfg.enableThinking, tools := tools,
    messages := messages }

/-- `_messages_create` (reply_generator.py 162-183): on failure first retry
with the MCP attachment stripped, then with extended thinking stripped, then
re-raise. -/
def messages_create (api : ApiRequest → Except Unit Message)
    (req : ApiRequest) : Except Unit Message :=
  match api req with
  | .ok m => .ok m
  | .error e =>
    if req.mcp then
      match api { req with mcp := false } with
      | .ok m => .ok m
      | .error e1 =>
        if req.thinking then api { req with mcp := false, thinking := false }
        else .error e1
    else if req.thinking then api { req with thinking := false }
    else .error e

/-- `_extract_text` (reply_generator.py 113-119). -/
def extract_text (m : Message) : String :=
  m.content.foldl (fun acc b => if b.type == "text" then acc ++ b.text else acc) ""

def noContextMsg : String := "참고 컨텍스트가 없습니다."

/-- The context fallthrough of `_resolve_reference_payload`
(reply_generator.py 218-220). -/
def reference_fallback (fallbackContext : String) (maxChars : Int) : String :=
  if fallbackContext ≠ "" then fallbackContext.take maxChars.toNat
  else noContextMsg

/-- `_resolve_reference_payload` (reply_generator.py 209-220): a raising or
empty `context_lookup` falls through to the fallback context. -/
def resolve_reference_payload
    (lookup : Option (String → Int → Except Unit String))
    (query : String) (maxChars : Int) (fallbackContext : String) : String :=
  match lookup with
  | some f =>
    match f query maxChars with
    | .ok s =>
      if s ≠ "" then s.take maxChars.toNat
      else reference_fallback fallbackContext maxChars
    | .error _ => reference_fallback fallbackContext maxChars
  | none => reference_fallback fallbackContext maxChars

/-- The query taken from a tool-use block (reply_generator.py 249-251). -/
def tool_query (defaultQuery : String) (input : Option ToolInput) : String :=
  match input with
  | some ti =>
    match ti.query with
    | some q => if q.trim ≠ "" then q.trim else defaultQuery
    | none => defaultQuery
  | none => defaultQuery

/-- The `max_chars` taken from a tool-use block (reply_generator.py 252-254). -/
def tool_max_chars (cfg : GenConfig) (input : Option ToolInput) : Int :=
  match input with
  | some ti =>
    match ti.maxChars with
    | some r => max 500 (min 20000 r)
    | none => cfg.toolMaxContextChars
  | none => cfg.toolMaxContextChars

/-- The `tool_results` list built from the first response's blocks
(reply_generator.py 239-263). -/
def tool_results_of (cfg : GenConfig)
    (lookup : Option (String → Int → Except Unit String))
    (defaultQuery fallbackContext : String) (blocks : List Block) :
    List (String × String) :=
  blocks.filterMap fun b =>
    if b.type ≠ "tool_use" then none
    else if b.name ≠ REFERENCE_TOOL_NAME then none
    else some (b.id,
      resolve_reference_payload lookup (tool_query defaultQuery b.input)
        (tool_max_chars cfg b.input) fallbackContext)

/-- `_request_with_reference_tool` (reply_generator.py 222-276): first
request offers the reference tool; if the model called it, one continuation
request supplies the tool results and its response is final. -/
def request_with_reference_tool (api : ApiRequest → Except Unit Message)
    (cfg : GenConfig) (lookup : Option (String → Int → Except Unit String))
    (userMessage defaultQuery fallbackContext : String) :
    Except Unit Message :=
  match messages_create api (build_request_kwargs cfg
      [{ role := "user", content := .text userMessage }] true) with
  | .error e => .error e
  | .ok first =>
    if first.stopReason ≠ "tool_use" then .ok first
    else
      if (tool_results_of cfg lookup defaultQuery fallbackContext
          first.content).isEmpty then .ok first
      else
        messages_create api (build_request_kwargs cfg
          [{ role := "user", content := .text userMessage },
           { role := "assistant", content := .blocks first.content },
           { role := "user", content := .toolResults
              (tool_results_of cfg lookup defaultQuery fallbackContext
                first.content) }] true)

/-- `_request_direct` (reply_generator.py 185-189). -/
def request_direct (api : ApiRequest → Except Unit Message) (cfg : GenConfig)
    (userMessage : String) : Except Unit Message :=
  messages_create api (build_request_kwargs cfg
    [{ role := "user", content := .text userMessage }] false)

/-- `_call_claude` (reply_generator.py 278-296): the tool-mediated level is
attempted when enabled and some context source exists; any exception from it
is caught and the direct level is attempted instead. -/
def call_claude (api : ApiRequest → Except Unit Message) (cfg : GenConfig)
    (lookup : Option (String → Int → Except Unit String))
    (toolUserMessage fallbackUserMessage defaultQuery fallbackContext :
      String) : Except Unit Message :=
  if cfg.enableToolUse && (lookup.isSome || fallbackContext ≠ "") then
    match request_with_reference_tool api cfg lookup toolUserMessage
        defaultQuery fallbackContext with
    | .ok m => .ok m
    | .error _ => request_direct api cfg fallbackUserMessage
  else request_direct api cfg fallbackUserMessage

/-- Python `sep.join(parts)` on `String`. -/
def joinStr (sep : String) : List String → String
  | [] => ""
  | [x] => x
  | x :: y :: rest => x ++ sep ++ joinStr sep (y :: rest)

def reply_tool_hint : String :=
  "## 참고 자료\n필요하면 `get_priority_reference` 도구를 호출해 참고 문맥을 확인한 뒤 답변하세요."

def current_question (subject content : String) : String :=
  "## 현재 질문\n제목: " ++ subject ++ "\n\n내용:\n" ++ content

def answer_rule : String :=
  "\n위 질문에 대한 답변만 작성하세요. 접두어(예: '답변:')는 붙이지 마세요."

/-- The tool-level user message of `generate_reply`
(reply_generator.py 299-323). -/
def reply_tool_user_message (cfg : GenConfig) (subject content : String) :
    String :=
  joinStr "\n\n---\n\n"
    ((if cfg.enableToolUse then [reply_tool_hint] else []) ++
      [current_question subject content, answer_rule])

/-- The direct-level user message of `generate_reply`. -/
def reply_fallback_user_message (subject content : String) : String :=
  joinStr "\n\n---\n\n" [current_question subject content, answer_rule]

/-- The default tool query of `generate_reply` (reply_generator.py 325). -/
def reply_default_query (subject content : String) : String :=
  subject ++ "\n" ++ content.take 1200

/-- `generate_reply` (reply_generator.py 298-338): every exception is caught
and turned into the empty string; a successful message is post-processed by
`_clean_reply` (the `cleanReply` collaborator) after `_extract_text`. -/
def generate_reply (api : ApiRequest → Except Unit Message) (cfg : GenConfig)
    (lookup : Option (String → Int → Except Unit String))
    (cleanReply : String → String) (subject content : String) : String :=
  match call_claude api cfg lookup (reply_tool_user_message cfg subject content)
      (reply_fallback_user_message subject content)
      (reply_default_query subject content) "" with
  | .ok m => cleanReply (extract_text m)
  | .error _ => ""

/-- The transcript line of one conversation entry
(reply_generator.py 367-370). -/
def conv_line (e : ConvEntry) : String :=
  e.nick ++ (if e.is_bot then " (봇)" else " (질문자)") ++ ": " ++ e.content

def followup_post_info (subject content : String) : String :=
  "## 원문 게시글\n제목: " ++ subject ++ "\n\n내용:\n" ++ content.take 1000

def followup_new_comment (commenterNick newComment : String) : String :=
  "## 새 댓글 (답변 필요)\n" ++ commenterNick ++ ": " ++ newComment

def followup_reply_rule : String :=
  "\n위 댓글에 대한 답변을 작성하세요. 기존 대화 맥락을 반영하고 접두어는 붙이지 마세요."

def followup_tool_hint : String :=
  "## 참고 자료\n필요하면 `get_priority_reference` 도구를 호출해 참고 문맥을 확인하세요."

/-- The user-message parts shared by both levels of
`generate_followup_reply` (reply_generator.py 357-387). -/
def followup_shared_parts (subject content : String)
    (history : List ConvEntry) (newComment commenterNick : String) :
    List String :=
  [followup_post_info subject content] ++
  (if history.isEmpty then []
   else ["## 기존 댓글 대화\n" ++ joinStr "\n\n" (history.map conv_line)]) ++
  [followup_new_comment commenterNick newComment, followup_reply_rule]

def followup_tool_user_message (cfg : GenConfig) (subject content : String)
    (history : List ConvEntry) (newComment commenterNick : String) : String :=
  joinStr "\n\n---\n\n"
    ((if cfg.enableToolUse then [followup_tool_hint] else []) ++
      followup_shared_parts subject content history newComment commenterNick)

def followup_fallback_user_message (subject content : String)
    (history : List ConvEntry) (newComment commenterNick : String) : String :=
  joinStr "\n\n---\n\n"
    (followup_shared_parts subject content history newComment commenterNick)

/-- The default tool query of `generate_followup_reply`
(reply_generator.py 391). -/
def followup_default_query (subject content newComment : String) : String :=
  subject ++ "\n" ++ newComment ++ "\n" ++ content.take 900

/-- `generate_followup_reply` (reply_generator.py 340-404). -/
def generate_followup_reply (api : ApiRequest → Except Unit Message)
    (cfg : GenConfig) (lookup : Option (String → Int → Except Unit String))
    (cleanReply : String → String) (subject content : String)
    (history : List ConvEntry) (newComment commenterNick : String) : String :=
  match call_claude api cfg lookup
      (followup_tool_user_message cfg subject content history newComment
        commenterNick)
      (followup_fallback_user_message subject content history newComment
        commenterNick)
      (followup_default_query subject content newComment) "" with
  | .ok m => cleanReply (extract_text m)
  | .error _ => ""

/-- If the tool-mediated level raises, `_call_claude` falls back to the
direct level, whatever the enablement flags. -/
lemma call_claude_error_tool (api : ApiRequest → Except Unit Message)
    (cfg : GenConfig) (lookup : Option (String → Int → Except Unit String))
    (tum fum dq fc : String) (e : Unit)
    (htool : request_with_reference_tool api cfg lookup tum dq fc = .error e) :
    call_claude api cfg lookup tum fum dq fc = request_direct api cfg fum := by
  unfold call_claude
  split
  · rw [htool]
  · rfl

/-- An API that always raises defeats every retry of `_messages_create`. -/
lemma messages_create_fail (api : ApiRequest → Except Unit Message)
    (hfail : ∀ req, api req = .error ()) (req : ApiRequest) :
    messages_create api req = .error () := by
  by_cases hm : req.mcp <;> by_cases ht : req.thinking <;>
    simp [messages_create, hfail, hm, ht]

/-- C6: reply generation never propagates an exception.  If the
tool-mediated level raises, the direct (no-tool) level is attempted and its
result, cleaned, is returned; if the direct level then also raises — in
particular when the API fails on every request, after all of
`_messages_create`'s internal retries — `generate_reply` and
`generate_followup_reply` return the empty string instead of raising. -/
theorem generate_reply_degrade (api : ApiRequest → Except Unit Message)
    (cfg : GenConfig) (lookup : Option (String → Int → Except Unit String))
    (cleanReply : String → String) (subject content : String)
    (history : List ConvEntry) (newComment commenterNick : String) :
    (∀ e : Unit,
      request_with_reference_tool api cfg lookup
          (reply_tool_user_message cfg subject content)
          (reply_default_query subject content) "" = .error e →
        generate_reply api cfg lookup cleanReply subject content =
          (match request_direct api cfg
              (reply_fallback_user_message subject content) with
           | .ok m => cleanReply (extract_text m)
           | .error _ => "")) ∧
    (∀ e e' : Unit,
      request_with_reference_tool api cfg lookup
          (reply_tool_user_message cfg subject content)
          (reply_default_query subject content) "" = .error e →
        request_direct api cfg (reply_fallback_user_message subject content) =
          .error e' →
        generate_reply api cfg lookup cleanReply subject content = "") ∧
    ((∀ req, api req = .error ()) →
      generate_reply api cfg lookup cleanReply subject content = "" ∧
      generate_followup_reply api cfg lookup cleanReply subject content
        history newComment commenterNick = "") := by
  refine ⟨?_, ?_, ?_⟩
  · intro e htool
    unfold generate_reply
    rw [call_claude_error_tool api cfg lookup _ _ _ _ e htool]
  · intro e e' htool hdirect
    unfold generate_reply
    rw [call_claude_error_tool api cfg lookup _ _ _ _ e htool, hdirect]
  · intro hfail
    have hdir : ∀ s, request_direct api cfg s = .error () := by
      intro s
      unfold request_direct
      exact messages_create_fail api hfail _
    have htool : ∀ tum dq fc,
        request_with_reference_tool api cfg lookup tum dq fc = .error () := by
      intro tum dq fc
      unfold request_with_reference_tool
      rw [messages_create_fail api hfail _]
    constructor
    · unfold generate_reply
      rw [call_claude_error_tool api cfg lookup _ _ _ _ () (htool _ _ _),
        hdir _]
    · unfold generate_followup_reply
      rw [call_claude_error_tool api cfg lookup _ _ _ _ () (htool _ _ _),
        hdir _]

/-!
## PollState persistence — `load_state` / `save_state` (src/main.py 45-72)

`state.json` is modelled as a JSON value tree; `json.dump` followed by
`json.load` is the identity on such trees, so the file round trip is the
encode/decode round trip below.
-/

inductive Json where
  | null
  | bool (b : Bool)
  | num (n : Int)
  | str (s : String)
  | arr (xs : List Json)
  | obj (fields : List (String × Json))

/-- One `watched_articles` entry as written by `add_to_watch`
(main.py 202-208). -/
def encodeWatchInfo (w : WatchInfo) : Json :=
  .obj [("writer_nick", .str w.writer_nick),
        ("subject", .str w.subject),
        ("last_comment_count", .num (Int.ofNat w.last_comment_count)),
        ("checks_remaining", .num w.checks_remaining),
        ("added_at", .str w.added_at)]

def decodeWatchInfo : Json → Option WatchInfo
  | .obj fields =>
    match fields.lookup "writer_nick", fields.lookup "subject",
        fields.lookup "last_comment_count",
        fields.lookup "checks_remaining", fields.lookup "added_at" with
    | some (.str wn), some (.str sj), some (.num lcc), some (.num cr),
        some (.str aa) =>
      match lcc with
      | Int.ofNat n =>
        some { writer_nick := wn, subject := sj, last_comment_count := n,
               checks_remaining := cr, added_at := aa }
      | Int.negSucc _ => none
    | _, _, _, _, _ => none
  | _ => none

/-- The shape of `state` (main.py 54-59). -/
structure BotState where
  last_article_id : Int
  processed_articles : List Int
  watched_articles : List (String × WatchInfo)
  last_run : Option String

def encodeState (st : BotState) : Json :=
  .obj [("last_article_id", .num st.last_article_id),
        ("processed_articles", .arr (st.processed_articles.map Json.num)),
        ("watched_articles",
          .obj (st.watched_articles.map
            (fun kv => (kv.1, encodeWatchInfo kv.2)))),
        ("last_run",
          match st.last_run with
          | some s => .str s
          | none => .null)]

/-- Read a JSON array of ints. -/
def decodeNums : List Json → Option (List Int)
  | [] => some []
  | Json.num n :: rest => (decodeNums rest).map (fun l => n :: l)
  | _ => none

/-- Read the `watched_articles` object entry by entry. -/
def decodeWatchList : List (String × Json) → Option (List (String × WatchInfo))
  | [] => some []
  | (k, v) :: rest =>
    match decodeWatchInfo v, decodeWatchList rest with
    | some w, some ws => some ((k, w) :: ws)
    | _, _ => none

def decodeState : Json → Option BotState
  | .obj fields =>
    match fields.lookup "last_article_id",
        fields.lookup "processed_articles",
        fields.lookup "watched_articles", fields.lookup "last_run" with
    | some (.num lastId), some (.arr ps), some (.obj ws), some lr =>
      match decodeNums ps, decodeWatchList ws,
          (match lr with
           | Json.null => some none
           | Json.str s => some (some s)
           | _ => none) with
      | some ps, some ws, some lr =>
        some { last_article_id := lastId, processed_articles := ps,
               watched_articles := ws, last_run := lr }
      | _, _, _ => none
    | _, _, _, _ => none
  | _ => none

/-- `save_state` (main.py 62-72): stamp `last_run`, truncate the processed
history to its most recent 200 entries when longer, write the record.
Returns (the state as mutated in memory, the persisted JSON tree). -/
def save_state (st : BotState) (now : String) : BotState × Json :=
  (⟨st.last_article_id,
    if 200 < st.processed_articles.length then
      st.processed_articles.drop (st.processed_articles.length - 200)
    else st.processed_articles,
    st.watched_articles, some now⟩,
   encodeState
    ⟨st.last_article_id,
      if 200 < st.processed_articles.length then
        st.processed_articles.drop (st.processed_articles.length - 200)
      else st.processed_articles,
      st.watched_articles, some now⟩)

def default_state : BotState :=
  { last_article_id := 0, processed_articles := [], watched_articles := [],
    last_run := none }

/-- `load_state` (main.py 45-59): read the persisted record back into the
typed state; a missing or unreadable file degrades to the fresh default. -/
def load_state (file : Option Json) : BotState :=
  match file with
  | some j => (decodeState j).getD default_state
  | none => default_state

lemma decodeWatchInfo_encode (w : WatchInfo) :
    decodeWatchInfo (encodeWatchInfo w) = some w := rfl

lemma decodeNums_map (l : List Int) : decodeNums (l.map Json.num) = some l := by
  induction l with
  | nil => rfl
  | cons x rest ih => simp [decodeNums, ih]

lemma decodeWatchList_map (l : List (String × WatchInfo)) :
    decodeWatchList (l.map (fun kv => (kv.1, encodeWatchInfo kv.2))) =
      some l := by
  induction l with
  | nil => rfl
  | cons x rest ih => simp [decodeWatchList, ih, decodeWatchInfo_encode]

lemma decodeState_encode (st : BotState) :
    decodeState (encodeState st) = some st := by
  obtain ⟨lastId, ps, ws, lr⟩ := st
  cases lr with
  | none =>
    simp [encodeState, decodeState, List.lookup, decodeNums_map,
      decodeWatchList_map]
  | some s =>
    simp [encodeState, decodeState, List.lookup, decodeNums_map,
      decodeWatchList_map]

/-- C7: a state written by `save_state` and reloaded by `load_state`
reproduces the persisted record exactly: the same last-scanned identifier,
the same watch registry (every entry's author, subject, cached comment
count, remaining budget and timestamp), and the processed-identifier history
truncated to its most recent 200 entries when it was longer (exactly 200
remain), otherwise untouched. -/
theorem save_load_roundtrip (st : BotState) (now : String) :
    load_state (some (save_state st now).2) = (save_state st now).1 ∧
    (save_state st now).1.last_article_id = st.last_article_id ∧
    (save_state st now).1.watched_articles = st.watched_articles ∧
    (save_state st now).1.processed_articles =
      (if 200 < st.processed_articles.length then
        st.processed_articles.drop (st.processed_articles.length - 200)
      else st.processed_articles) ∧
    (200 < st.processed_articles.length →
      (save_state st now).1.processed_articles.length = 200) := by
  refine ⟨?_, rfl, rfl, rfl, ?_⟩
  · show (decodeState (encodeState _)).getD default_state = _
    rw [decodeState_encode]
    rfl
  · intro hlen
    show (if 200 < st.processed_articles.length then
        st.processed_articles.drop (st.processed_articles.length - 200)
      else st.processed_articles).length = 200
    rw [if_pos hlen, List.length_drop]
    omega

/-!
## KnowledgeService — modules/knowledge_mcp_server.py

POSIX paths are segment lists; `Path.resolve()` is `..`/`.`/empty-segment
normalization (the reference root holds no symlinks).  The filesystem is an
association list from resolved absolute paths to the file's lines.
-/

abbrev PathSegs := List String

/-- Split a character path on `/` into raw segments (may be empty). -/
def splitSegsGo (cur : List Char) : List Char → List String
  | [] => [String.mk cur.reverse]
  | c :: rest =>
    if c = '/' then String.mk cur.reverse :: splitSegsGo [] rest
    else splitSegsGo (c :: cur) rest

def splitSlash (l : List Char) : List String := splitSegsGo [] l

/-- `Path.resolve()` as pure normalization: drop empty and `.` segments,
let `..` pop one segment (staying put at the filesystem root). -/
def resolveSegs (segs : List String) : PathSegs :=
  segs.foldl (fun acc s =>
    if s = "" || s = "." then acc
    else if s = ".." then acc.dropLast
    else acc ++ [s]) []

def isAbsolute (l : List Char) : Bool :=
  match l with
  | '/' :: _ => true
  | _ => false

/-- `self.root / file_name`: an absolute `file_name` replaces the root. -/
def joinedSegs (root : PathSegs) (fileName : String) : List String :=
  if isAbsolute fileName.data then splitSlash fileName.data
  else root ++ splitSlash fileName.data

def lastSeg (p : PathSegs) : String := p.getLastD ""

/-- `pathlib`'s `suffix`: from the last dot of the final component, unless
that dot is its first or last character. -/
def pySuffix (name : List Char) : List Char :=
  match name.reverse.findIdx? (fun c => c = '.') with
  | none => []
  | some j =>
    if 0 < name.length - 1 - j ∧ name.length - 1 - j < name.length - 1 then
      name.drop (name.length - 1 - j)
    else []

/-- The two recognized content kinds (knowledge_mcp_server.py line 39). -/
def allowed_suffix (name : String) : Bool :=
  (pySuffix name.data).map Char.toLower == ".md".data ||
  (pySuffix name.data).map Char.toLower == ".js".data

/-- `KnowledgeService._safe_resolve` (knowledge_mcp_server.py 29-41):
reject an empty name, a resolved path not under the root, a non-file, or a
file of an unrecognized kind. -/
def safe_resolve (root : PathSegs) (fs : List (PathSegs × List String))
    (fileName : String) : Option PathSegs :=
  if fileName = "" then none
  else
    if root.isPrefixOf (resolveSegs (joinedSegs root fileName)) then
      if (fs.lookup (resolveSegs (joinedSegs root fileName))).isSome then
        if allowed_suffix (lastSeg (resolveSegs (joinedSegs root fileName))) then
          some (resolveSegs (joinedSegs root fileName))
        else none
      else none
    else none

def invalid_file_msg : String :=
  "Invalid file_name. Allowed files are `.md` and `.js` inside the `knowledge` folder only."

def empty_file_msg (name : String) : String := name ++ " is empty."

/-- The clamped zero-based line window of `KnowledgeService.read`
(knowledge_mcp_server.py 69-72) for a file of `total` lines:
`start_line` is clamped to at least 1 and back onto the last line,
`max_lines` to 1..1000. -/
def read_window (total : Nat) (startLine maxLines : Int) : Nat × Nat :=
  ((min (max 1 startLine - 1) ((total : Int) - 1)).toNat,
   (min (min (max 1 startLine - 1) ((total : Int) - 1) +
      max 1 (min 1000 maxLines)) (total : Int)).toNat)

/-- Python `f"{n:4}"`. -/
def pad4 (n : Nat) : String :=
  if (toString n).length < 4 then
    String.mk (List.replicate (4 - (toString n).length) ' ') ++ toString n
  else toString n

/-- The numbered window body (knowledge_mcp_server.py 74-77). -/
def numbered_lines (lines : List String) (si ei : Nat) : String :=
  joinStr "\n" (((List.range (ei - si)).map (fun k => si + k)).map
    (fun i => pad4 (i + 1) ++ ": " ++ lines.getD i ""))

/-- `KnowledgeService.read` (knowledge_mcp_server.py 52-78). -/
def read_doc (root : PathSegs) (fs : List (PathSegs × List String))
    (fileName : String) (startLine maxLines : Int) : String :=
  match safe_resolve root fs fileName with
  | none => invalid_file_msg
  | some p =>
    match fs.lookup p with
    | none => "Failed to read file"
    | some lines =>
      if lines.length = 0 then empty_file_msg (lastSeg p)
      else
        "# " ++ lastSeg p ++ " (" ++
        toString ((read_window lines.length startLine maxLines).1 + 1) ++ "-" ++
        toString (read_window lines.length startLine maxLines).2 ++ "/" ++
        toString lines.length ++ ")\n" ++
        numbered_lines lines (read_window lines.length startLine maxLines).1
          (read_window lines.length startLine maxLines).2

lemma safe_resolve_none_of_escape (root : PathSegs)
    (fs : List (PathSegs × List String)) (fileName : String)
    (h : root.isPrefixOf (resolveSegs (joinedSegs root fileName)) = false) :
    safe_resolve root fs fileName = none := by
  unfold safe_resolve
  split_ifs with h1 h2 h3 h4 <;> try rfl
  exact absurd h2 (by simp [h])

lemma safe_resolve_none_of_missing (root : PathSegs)
    (fs : List (PathSegs × List String)) (fileName : String)
    (h : fs.lookup (resolveSegs (joinedSegs root fileName)) = none) :
    safe_resolve root fs fileName = none := by
  unfold safe_resolve
  split_ifs with h1 h2 h3 h4 <;> try rfl
  exact absurd h3 (by simp [h])

lemma safe_resolve_none_of_suffix (root : PathSegs)
    (fs : List (PathSegs × List String)) (fileName : String)
    (h : allowed_suffix (lastSeg (resolveSegs (joinedSegs root fileName))) =
      false) :
    safe_resolve root fs fileName = none := by
  unfold safe_resolve
  split_ifs with h1 h2 h3 h4 <;> try rfl
  exact absurd h4 (by simp [h])

/-- A concrete reference root with one servable document, and a secret file
that lies outside the root. -/
def kbRoot : PathSegs := ["home", "kb"]

def kbFs : List (PathSegs × List String) :=
  [(["home", "kb", "doc.md"], ["alpha", "beta", "gamma"]),
   (["home", "secret.md"], ["classified"])]

/-- C9: the reference-service read serves only `.md`/`.js` files that exist
under the reference root.  An empty name, a name whose resolved path escapes
the root (path traversal), a non-existent file, or an unrecognized suffix is
answered with the invalid-file message; a successfully resolved path always
lies under the root, exists, and has a recognized suffix — and it is the
only path the read touches.  Concretely, `../secret.md` and
`/home/secret.md` (a real file outside the root), a `.txt` name and a
missing file are all rejected. -/
theorem read_doc_confinement (root : PathSegs)
    (fs : List (PathSegs × List String)) (fileName : String)
    (startLine maxLines : Int) :
    (safe_resolve root fs fileName = none →
      read_doc root fs fileName startLine maxLines = invalid_file_msg) ∧
    (∀ p, safe_resolve root fs fileName = some p →
      p = resolveSegs (joinedSegs root fileName) ∧
      root.isPrefixOf p = true ∧
      (fs.lookup p).isSome = true ∧
      allowed_suffix (lastSeg p) = true) ∧
    (root.isPrefixOf (resolveSegs (joinedSegs root fileName)) = false →
      read_doc root fs fileName startLine maxLines = invalid_file_msg) ∧
    (fs.lookup (resolveSegs (joinedSegs root fileName)) = none →
      read_doc root fs fileName startLine maxLines = invalid_file_msg) ∧
    (allowed_suffix (lastSeg (resolveSegs (joinedSegs root fileName))) =
        false →
      read_doc root fs fileName startLine maxLines = invalid_file_msg) ∧
    read_doc kbRoot kbFs "../secret.md" 1 250 = invalid_file_msg ∧
    read_doc kbRoot kbFs "/home/secret.md" 1 250 = invalid_file_msg ∧
    read_doc kbRoot kbFs "doc.txt" 1 250 = invalid_file_msg ∧
    read_doc kbRoot kbFs "missing.md" 1 250 = invalid_file_msg := by
  have hmatch : ∀ (root : PathSegs) (fs : List (PathSegs × List String))
      (fileName : String),
      safe_resolve root fs fileName = none →
      read_doc root fs fileName startLine maxLines = invalid_file_msg := by
    intro root fs fileName h
    unfold read_doc
    rw [h]
  refine ⟨hmatch root fs fileName, ?_, ?_, ?_, ?_,
    by decide, by decide, by decide, by decide⟩
  · intro p hp
    unfold safe_resolve at hp
    split_ifs at hp with h1 h2 h3 h4
    injection hp with hp
    subst hp
    exact ⟨rfl, h2, h3, h4⟩
  · intro h
    exact hmatch root fs fileName (safe_resolve_none_of_escape root fs fileName h)
  · intro h
    exact hmatch root fs fileName (safe_resolve_none_of_missing root fs fileName h)
  · intro h
    exact hmatch root fs fileName (safe_resolve_none_of_suffix root fs fileName h)

/-- C10: for a valid file under the root and arbitrary integer `start_line`
and `max_lines`, the read is total and stays within the file: the clamped
window starts before the end of the file, is non-empty, ends within the
file, spans at most 1000 lines, and the reply is the header plus exactly
that numbered window. -/
theorem read_doc_total (root : PathSegs)
    (fs : List (PathSegs × List String)) (fileName : String)
    (startLine maxLines : Int) (p : PathSegs) (lines : List String)
    (hres : safe_resolve root fs fileName = some p)
    (hfile : fs.lookup p = some lines) (hne : lines ≠ []) :
    (read_window lines.length startLine maxLines).1 < lines.length ∧
    (read_window lines.length startLine maxLines).1 <
      (read_window lines.length startLine maxLines).2 ∧
    (read_window lines.length startLine maxLines).2 ≤ lines.length ∧
    (read_window lines.length startLine maxLines).2 -
      (read_window lines.length startLine maxLines).1 ≤ 1000 ∧
    read_doc root fs fileName startLine maxLines =
      "# " ++ lastSeg p ++ " (" ++
      toString ((read_window lines.length startLine maxLines).1 + 1) ++ "-" ++
      toString (read_window lines.length startLine maxLines).2 ++ "/" ++
      toString lines.length ++ ")\n" ++
      numbered_lines lines (read_window lines.length startLine maxLines).1
        (read_window lines.length startLine maxLines).2 := by
  have hpos : 0 < lines.length := List.length_pos.mpr hne
  refine ⟨?_, ?_, ?_, ?_, ?_⟩
  · unfold read_window
    omega
  · unfold read_window
    omega
  · unfold read_window
    omega
  · unfold read_window
    omega
  · simp only [read_doc, hres, hfile]
    rw [if_neg (by omega : ¬ lines.length = 0)]

/-- C10 witness: reading `doc.md` (3 lines) with `start_line = 99` and
`max_lines = 0` clamps onto the last line and returns exactly it. -/
theorem read_doc_total_witness :
    safe_resolve kbRoot kbFs "doc.md" = some ["home", "kb", "doc.md"] ∧
    List.lookup ["home", "kb", "doc.md"] kbFs =
      some ["alpha", "beta", "gamma"] ∧
    (["alpha", "beta", "gamma"] : List String) ≠ [] ∧
    (read_window 3 99 0).1 < 3 ∧
    (read_window 3 99 0).1 < (read_window 3 99 0).2 ∧
    (read_window 3 99 0).2 ≤ 3 :=
  ⟨by decide, by decide, by decide,
    (read_doc_total kbRoot kbFs "doc.md" 99 0 ["home", "kb", "doc.md"]
      ["alpha", "beta", "gamma"] (by decide) (by decide) (by decide)).1,
    (read_doc_total kbRoot kbFs "doc.md" 99 0 ["home", "kb", "doc.md"]
      ["alpha", "beta", "gamma"] (by decide) (by decide) (by decide)).2.1,
    (read_doc_total kbRoot kbFs "doc.md" 99 0 ["home", "kb", "doc.md"]
      ["alpha", "beta", "gamma"] (by decide) (by decide) (by decide)).2.2.1⟩

end CafeBot
